import Mathlib

/-
Verification of the jwt-middleware claim-requirement engine, freshness rule,
key cache and credential extraction, as a shallow embedding of the Go source
(`jwt.go`, `fetch.go`, `jwks.go`) into Lean.

Go dynamic values (`any`), as produced by JSON unmarshalling with
`UseNumber`/`WithJSONNumber` (token claims) and YAML/mapstructure decoding
(configuration), are modelled by the inductive `GoValue` below.  Machine
integers are modelled as `Int` with explicit two's-complement wrap-around
where Go's `int64` arithmetic can overflow.  Functions that can panic in Go
(unchecked type assertions, indexing) return `Option`, with `none` for the
panic.  Network fetches and the Go `html/template` engine are external
collaborators of the core and enter as explicit oracle parameters.

Floating-point configuration literals (Go `float64`) are outside the modelled
value universe: no claim under verification mentions them, and the single
source branch that inspects them (`ValueRequirement.Validate`, `case
float64`) is unreachable from the modelled configurations.
-/

namespace JwtMW

/-- GoValue models the Go `any` values that flow through the middleware:
`nil`, `bool`, `string`, `json.Number` (constructor `jnum`, carrying the
literal digit string), Go `int` (configuration side), `[]any` and
`map[string]any` (modelled as an association list with unique keys, the
shape Go map literals decoded from JSON/YAML have). -/
inductive GoValue where
  | null : GoValue
  | bool (b : Bool) : GoValue
  | str (s : String) : GoValue
  | jnum (s : String) : GoValue
  | int (n : Int) : GoValue
  | arr (xs : List GoValue) : GoValue
  | obj (fields : List (String × GoValue)) : GoValue

/-- lookup of a key in a Go map modelled as an association list: the first
binding wins (Go maps have unique keys, so at most one binding exists). -/
def goGet (l : List (String × α)) (k : String) : Option α :=
  match l with
  | [] => none
  | (k', v) :: rest => if k' = k then some v else goGet rest k

/-- goInsert models Go map assignment `m[k] = v`: any existing binding for
`k` is replaced.  Go maps are unordered, so placing the new binding last is
observationally equivalent. -/
def goInsert (l : List (String × α)) (k : String) (v : α) : List (String × α) :=
  (l.filter (fun p => p.1 ≠ k)) ++ [(k, v)]

mutual
/-- deepEqual models `reflect.DeepEqual` restricted to the `GoValue`
universe: structural equality, with slices compared pointwise and maps
compared as finite maps (same size and every key of the left map bound in
the right map to a deep-equal value).  Values of different dynamic types
are never deep-equal. -/
def deepEqual : GoValue → GoValue → Bool
  | .null, .null => true
  | .bool a, .bool b => a == b
  | .str a, .str b => a == b
  | .jnum a, .jnum b => a == b
  | .int a, .int b => a == b
  | .arr xs, .arr ys => deepEqualList xs ys
  | .obj xs, .obj ys => xs.length == ys.length && deepEqualFields xs ys
  | _, _ => false

/-- deepEqualList compares two Go slices pointwise. -/
def deepEqualList : List GoValue → List GoValue → Bool
  | [], [] => true
  | x :: xs, y :: ys => deepEqual x y && deepEqualList xs ys
  | _, _ => false

/-- deepEqualFields checks that every binding of the first map is matched by
a deep-equal binding in the second. -/
def deepEqualFields : List (String × GoValue) → List (String × GoValue) → Bool
  | [], _ => true
  | (k, v) :: rest, ys => deepEqualFieldLookup k v ys && deepEqualFields rest ys

/-- deepEqualFieldLookup finds the binding of `k` in `ys` and compares it
with `v`. -/
def deepEqualFieldLookup (k : String) (v : GoValue) : List (String × GoValue) → Bool
  | [] => false
  | (k', v') :: rest => if k' = k then deepEqual v v' else deepEqualFieldLookup k v rest
end

/-- globMatch is modelled from the spec: the glob-style match
(`fnmatch.Match(pattern, name, 0)` from the `danwakefield/fnmatch`
dependency, which is not part of this repository's sources) described by the
spec as "glob-style match (`*` wildcard)": `*` in the pattern matches any
(possibly empty) run of characters, every other pattern character matches
itself literally, case-sensitively.  Bracket expressions, `?` and backslash
escapes do not occur in any configuration or claim value under verification
and are not modelled. -/
def globMatch : List Char → List Char → Bool
  | [], [] => true
  | '*' :: ps, [] => globMatch ps []
  | _ :: _, [] => false
  | [], _ :: _ => false
  | '*' :: ps, x :: ss => globMatch ps (x :: ss) || globMatch ('*' :: ps) ss
  | p :: ps, x :: ss => p == x && globMatch ps ss
termination_by p s => (s.length, p.length)
decreasing_by
  all_goals first
    | (apply Prod.Lex.right; simp_arith)
    | (apply Prod.Lex.left; simp_arith)

/-- globMatchS runs the glob matcher on strings. -/
def globMatchS (pattern name : String) : Bool :=
  globMatch pattern.data name.data

/-- parseInt64 models `strconv.ParseInt(s, 10, 64)` as used by
`json.Number.Int64`: an optional single leading sign, then one or more
decimal digits, with the result required to fit in a signed 64-bit
integer; anything else is an error (`none`). -/
def parseInt64 (s : String) : Option Int :=
  let (neg, digits) :=
    match s.data with
    | '+' :: rest => (false, rest)
    | '-' :: rest => (true, rest)
    | rest => (false, rest)
  if digits.isEmpty then none
  else if digits.all Char.isDigit then
    let n : Nat := digits.foldl (fun acc c => acc * 10 + (c.toNat - '0'.toNat)) 0
    let v : Int := if neg then -(n : Int) else (n : Int)
    if v < -(2 ^ 63) || v > 2 ^ 63 - 1 then none else some v
  else none

/-- int64wrap reduces an unbounded integer to the Go `int64` two's-complement
value with the same low 64 bits, modelling Go's defined wrap-around
overflow behaviour for signed integer arithmetic. -/
def int64wrap (z : Int) : Int :=
  (z + 2 ^ 63) % 2 ^ 64 - 2 ^ 63

/-- TemplateVariables models the per-request `map[string]string` passed to
template interpolation. -/
abbrev TemplateVariables := List (String × String)

/-- TemplateEngine abstracts the Go `html/template` engine, an external
collaborator of the core: `exec text variables` is the result of parsing
`text` and executing it with `missingkey=error`, `.error` covering both a
parse failure and an execution (missing-variable) failure. -/
structure TemplateEngine where
  exec : String → TemplateVariables → Except String String

/-- Requirement is the tagged requirement variant from the source:
`ValueRequirement{value, nested}` for a known value, `TemplateRequirement`
(carrying the template text) for a value interpolated per request. -/
inductive Requirement where
  | value (value : GoValue) (nested : GoValue) : Requirement
  | template (text : String) (nested : GoValue) : Requirement

/-- ClaimRequirements is the list of alternative requirements for one
claim (OR semantics). -/
abbrev ClaimRequirements := List Requirement

/-- Requirements maps claim names to their requirements (AND semantics);
the Go map is modelled as an association list with unique keys. -/
abbrev Requirements := List (String × ClaimRequirements)

/-- stringCase is the `case string` body of `ValueRequirement.Validate`:
`fnmatch.Match(value, required, 0) || value == "*." + required`, with the
claim value as the glob pattern and the requirement as the matched name,
and `false` when the requirement value is not a string. -/
def stringCase (rv : GoValue) (value : String) : Bool :=
  match rv with
  | .str required => globMatchS value required || value == "*." ++ required
  | _ => false

/-- validateNested models `ValueRequirement.ValidateNested`: a `nil` nested
requirement always succeeds; otherwise the nested requirement is normalized
to a list of acceptable values (`[]any` stays a list, any other value
becomes a one-element list) and the supplied value likewise — except that a
`nil` supplied value matches neither `case []any` nor `case any` of the Go
type switch and so normalizes to no values at all; the check succeeds when
some required value is `reflect.DeepEqual` to some supplied value. -/
def validateNested (nested : GoValue) (value : GoValue) : Bool :=
  match nested with
  | .null => true
  | _ =>
    let required : List GoValue := match nested with | .arr xs => xs | v => [v]
    let supplied : List GoValue := match value with | .arr xs => xs | .null => [] | v => [v]
    required.any (fun r => supplied.any (fun s => deepEqual r s))

mutual
/-- valueValidate models `ValueRequirement.Validate` (requirement value
`rv`, nested requirement `nested`, claim value as the final argument).
Array claim values succeed if any element validates, object claim values if
some key validates as a string and its value satisfies the nested
requirement; both fall through to the `reflect.DeepEqual` comparison at the
end of the function when no element or key matched.  String and
`json.Number` claim values return directly from their switch cases; every
other claim value is compared with `reflect.DeepEqual`. -/
def valueValidate (rv nested : GoValue) : GoValue → Bool
  | .arr xs => anyElemValidate rv nested xs || deepEqual (.arr xs) rv
  | .obj kvs =>
      (kvs.any (fun p => stringCase rv p.1 && validateNested nested p.2)) ||
        deepEqual (.obj kvs) rv
  | .str s => stringCase rv s
  | .jnum s =>
      (match rv with
       | .int i => (match parseInt64 s with | some v => v == i | none => false)
       | _ => false)
  | v => deepEqual v rv

/-- anyElemValidate folds `valueValidate` over the elements of an array
claim value (the `case []any` loop). -/
def anyElemValidate (rv nested : GoValue) : List GoValue → Bool
  | [] => false
  | x :: xs => valueValidate rv nested x || anyElemValidate rv nested xs
end

/-- Validate dispatches on the requirement variant: a `ValueRequirement`
validates the claim value directly; a `TemplateRequirement` first expands
its template with the per-request variables, failing the requirement on any
expansion error, and then delegates to the value requirement built from the
expanded string. -/
def Requirement.Validate (engine : TemplateEngine) :
    Requirement → GoValue → TemplateVariables → Bool
  | Requirement.value rv nested, v, _ => valueValidate rv nested v
  | Requirement.template text nested, v, vars =>
    match engine.exec text vars with
    | .error _ => false
    | .ok s => valueValidate (.str s) nested v

/-- claimReqsValidate models `ClaimRequirements.validate`: any single
requirement satisfying the claim value suffices (OR). -/
def claimReqsValidate (engine : TemplateEngine) (reqs : ClaimRequirements)
    (value : GoValue) (vars : TemplateVariables) : Bool :=
  reqs.any (fun r => r.Validate engine value vars)

/-- validateClaims models `JWTPlugin.validateClaims`: every configured claim
must be present in the token claims and satisfy its requirements; the first
missing or invalid claim aborts with the corresponding error message. -/
def validateClaims (engine : TemplateEngine) (require_ : Requirements)
    (claims : List (String × GoValue)) (vars : TemplateVariables) : Option String :=
  match require_ with
  | [] => none
  | (claim, reqs) :: rest =>
    match goGet claims claim with
    | none => some ("claim is not present: " ++ claim)
    | some value =>
      if claimReqsValidate engine reqs value vars then
        validateClaims engine rest claims vars
      else some ("claim is not valid: " ++ claim)

/-- listContainsSub decides whether `pat` occurs as a contiguous substring
of the second list. -/
def listContainsSub (pat : List Char) : List Char → Bool
  | [] => pat.isEmpty
  | c :: rest => pat.isPrefixOf (c :: rest) || listContainsSub pat rest

/-- strContains models `strings.Contains`. -/
def strContains (s pat : String) : Bool :=
  listContainsSub pat.data s.data

/-- NewRequirement builds a requirement from a configured value: a string
containing both "\x7b\x7b" and "\x7d\x7d" becomes a template requirement
(the Go code parses it eagerly via `template.Must`; parse errors surface
through the template engine here), anything else a value requirement. -/
def NewRequirement (value : GoValue) (nested : GoValue) : Requirement :=
  match value with
  | .str s =>
    if strContains s "\x7b\x7b" && strContains s "\x7d\x7d" then .template s nested
    else .value (.str s) nested
  | v => .value v nested

/-- convertRequire converts the declarative `require` configuration into
`Requirements`: a list value becomes one requirement per element (OR), an
object value becomes one requirement per key with the object's value as the
nested requirement, and any other value a single literal requirement.
There is no special treatment of any reserved key. -/
def convertRequire (require_ : List (String × GoValue)) : Requirements :=
  require_.map (fun p =>
    (p.1,
      match p.2 with
      | .arr xs => xs.map (fun v => NewRequirement v .null)
      | .obj kvs => kvs.map (fun q => NewRequirement (.str q.1) q.2)
      | v => [NewRequirement v .null]))

/-- allowRefresh models `JWTPlugin.allowRefresh`: `false` when the
freshness window is zero or no `iat` claim exists; otherwise the `iat`
value is asserted to be a `json.Number` — a non-`json.Number` value makes
the unchecked type assertion panic, modelled as `none` — and the result is
whether the conversion to `int64` succeeded and `now - iat`, computed in
wrap-around `int64` arithmetic, exceeds the freshness window. -/
def allowRefresh (freshness : Int) (now : Int)
    (claims : List (String × GoValue)) : Option Bool :=
  if freshness == 0 then some false
  else
    match goGet claims "iat" with
    | none => some false
    | some (.jnum s) =>
      match parseInt64 s with
      | some v => some (decide (int64wrap (now - v) > freshness))
      | none => some false
    | some _ => none

/-- validateParsed models the tail of `JWTPlugin.validate` for a token that
extracted and parsed successfully: claim validation decides between
success (HTTP 200; the claim-to-header projection does not affect the
status and is not modelled here) and failure, where `allowRefresh` chooses
Unauthorized (401) over Forbidden (403); a panic in `allowRefresh`
propagates (`none`). -/
def validateParsed (engine : TemplateEngine) (freshness : Int)
    (require_ : Requirements) (claims : List (String × GoValue))
    (vars : TemplateVariables) (now : Int) : Option Nat :=
  match validateClaims engine require_ claims vars with
  | none => some 200
  | some _ =>
    match allowRefresh freshness now claims with
    | none => none
    | some true => some 401
    | some false => some 403

/-- KeyCache is the shared mutable state of the plugin's key cache: the
primary map from key identifier to key material, and the map from source
identifier (a key-set URL or the fixed sentinel "internal") to the set of
keys that source last supplied.  Key material is opaque (`α`). -/
structure KeyCache (α : Type) where
  keys : List (String × α)
  issuerKeys : List (String × List (String × α))

/-- isIssuedKey models `JWTPlugin.isIssuedKey`: whether any source's key
set contains the identifier. -/
def isIssuedKey (cache : KeyCache α) (keyID : String) : Bool :=
  cache.issuerKeys.any (fun p => (goGet p.2 keyID).isSome)

/-- purgeKeys models `JWTPlugin.purgeKeys`: every key identifier in the
primary map that no source's set contains is deleted. -/
def purgeKeys (cache : KeyCache α) : KeyCache α :=
  { cache with keys := cache.keys.filter (fun p => isIssuedKey cache p.1) }

/-- fetchKeysStore models the critical section of `JWTPlugin.fetchKeys`
after the network fetch produced the key set `jwks` from the key-set
endpoint `url`: merge the fetched keys into the primary map, replace the
source's recorded key set, and purge. -/
def fetchKeysStore (cache : KeyCache α) (url : String)
    (jwks : List (String × α)) : KeyCache α :=
  let keys := jwks.foldl (fun ks p => goInsert ks p.1 p.2) cache.keys
  purgeKeys { keys := keys, issuerKeys := goInsert cache.issuerKeys url jwks }

/-- canonicalizeDomain appends a trailing slash when one is missing
(`strings.HasSuffix(domain, "/")` for the one-character suffix "/" is the
last character being '/'). -/
def canonicalizeDomain (domain : String) : String :=
  if domain.data.getLast? = some '/' then domain else domain ++ "/"

/-- isValidIssuer models `JWTPlugin.isValidIssuer`: the issuer must match
one of the configured allowed-issuer glob patterns (pattern side are the
configured issuers). -/
def isValidIssuer (issuers : List String) (issuer : String) : Bool :=
  issuers.any (fun allowed => globMatchS allowed issuer)

/-- FetchOutcome is the oracle answer for one invocation of
`plugin.fetchKeys(issuer)` as observed by `getKey`: on success the
plugin's primary keys map afterwards (fetch merges and purges it), on
failure the returned error message (the keys map is then unchanged). -/
inductive FetchOutcome (α : Type) where
  | success (newKeys : List (String × α)) : FetchOutcome α
  | failure (message : String) : FetchOutcome α

/-- getKeyFallback is the epilogue of `getKey`: return the fixed secret if
one is configured (with no error), else a nil key and whatever error the
miss path accumulated. -/
def getKeyFallback (secret : Option α) (err : Option String) :
    Option α × Option String :=
  match secret with
  | none => (none, err)
  | some s => (some s, none)

/-- getKey models `JWTPlugin.getKey` for a sequential execution.  The
result is `none` when the unchecked `kid.(string)` type assertion panics
(non-string kid header while issuers or keyed secrets are configured);
otherwise `some (key?, error?)`, the pair Go returns.  The error variable
starts as "no secret configured" and is overwritten by the miss path; a
successful fetch that still misses leaves it nil.  After a failed fetch or
an invalid issuer the loop's second iteration re-reads the unchanged keys
map, missing exactly as before, and breaks. -/
def getKey (issuers : List String) (keys : List (String × α))
    (secret : Option α) (kidHeader : Option GoValue) (issClaim : Option GoValue)
    (fetch : String → FetchOutcome α) : Option (Option α × Option String) :=
  if issuers.length > 0 || keys.length > 0 then
    match kidHeader with
    | none => some (getKeyFallback secret (some "no secret configured"))
    | some (.str kid) =>
      match goGet keys kid with
      | some key => some (some key, none)
      | none =>
        match issClaim with
        | some (.str iss) =>
          let issuer := canonicalizeDomain iss
          if isValidIssuer issuers issuer then
            match fetch issuer with
            | .success newKeys =>
              match goGet newKeys kid with
              | some key => some (some key, none)
              | none => some (getKeyFallback secret none)
            | .failure msg => some (getKeyFallback secret (some msg))
          else
            some (getKeyFallback secret
              (some ("issuer " ++ issuer ++ " is not valid")))
        | _ => some (getKeyFallback secret (some "no secret configured"))
    | some _ => none
  else some (getKeyFallback secret (some "no secret configured"))

/-- goGet_length_pos: a successful lookup means the map is non-empty. -/
lemma goGet_length_pos {α : Type} (l : List (String × α)) (k : String) (v : α)
    (h : goGet l k = some v) : l.length > 0 := by
  cases l with
  | nil => simp [goGet] at h
  | cons x rest => simp

/-- C8.  The claim's fallback clause is refuted: with one allowed issuer,
no cached keys and no fixed secret, a miss whose fetch succeeds but still
does not contain the requested kid makes `getKey` return a nil key AND a
nil error (the error variable was overwritten by the successful fetch),
not the "no secret configured" / "issuer is not valid" error the claim
requires. -/
theorem C8_counterexample_nil_key_nil_error :
    getKey ["https://a/"] ([] : List (String × Nat)) none (some (.str "k"))
      (some (.str "https://a/")) (fun _ => .success []) = some (none, none) := by
  simp [getKey, goGet, canonicalizeDomain, isValidIssuer, globMatchS, globMatch,
    getKeyFallback]

/-- C8 (amended).  `getKey` returns a cached key immediately on a kid hit,
for every fetch oracle (no fetch is consulted).  On a miss with a valid
issuer it applies the fetch once and retries the lookup exactly once in
the fetched key set.  When no hit is achievable it falls back to the fixed
secret if configured; otherwise the error is "issuer ... is not valid"
when the issuer failed the pattern check, the fetch's own error when the
fetch failed, "no secret configured" when no fetch was attempted (no
string `iss` claim), and — when a fetch succeeded but the kid is still
absent — a nil key with no error at all. -/
theorem C8_getKey_amended {α : Type} :
    (∀ (issuers : List String) (keys : List (String × α)) (secret : Option α)
        (issClaim : Option GoValue) (fetch : String → FetchOutcome α)
        (kid : String) (k : α),
      goGet keys kid = some k →
      getKey issuers keys secret (some (.str kid)) issClaim fetch =
        some (some k, none)) ∧
    (∀ (issuers : List String) (keys : List (String × α)) (secret : Option α)
        (iss : String) (fetch : String → FetchOutcome α) (kid : String)
        (m : List (String × α)) (k : α),
      (issuers.length > 0 ∨ keys.length > 0) →
      goGet keys kid = none →
      isValidIssuer issuers (canonicalizeDomain iss) = true →
      fetch (canonicalizeDomain iss) = .success m →
      goGet m kid = some k →
      getKey issuers keys secret (some (.str kid)) (some (.str iss)) fetch =
        some (some k, none)) ∧
    (∀ (issuers : List String) (keys : List (String × α)) (secret : Option α)
        (iss : String) (fetch : String → FetchOutcome α) (kid : String)
        (m : List (String × α)),
      (issuers.length > 0 ∨ keys.length > 0) →
      goGet keys kid = none →
      isValidIssuer issuers (canonicalizeDomain iss) = true →
      fetch (canonicalizeDomain iss) = .success m →
      goGet m kid = none →
      getKey issuers keys secret (some (.str kid)) (some (.str iss)) fetch =
        some (getKeyFallback secret none)) ∧
    (∀ (issuers : List String) (keys : List (String × α)) (secret : Option α)
        (iss : String) (fetch : String → FetchOutcome α) (kid : String)
        (msg : String),
      (issuers.length > 0 ∨ keys.length > 0) →
      goGet keys kid = none →
      isValidIssuer issuers (canonicalizeDomain iss) = true →
      fetch (canonicalizeDomain iss) = .failure msg →
      getKey issuers keys secret (some (.str kid)) (some (.str iss)) fetch =
        some (getKeyFallback secret (some msg))) ∧
    (∀ (issuers : List String) (keys : List (String × α)) (secret : Option α)
        (iss : String) (fetch : String → FetchOutcome α) (kid : String),
      (issuers.length > 0 ∨ keys.length > 0) →
      goGet keys kid = none →
      isValidIssuer issuers (canonicalizeDomain iss) = false →
      getKey issuers keys secret (some (.str kid)) (some (.str iss)) fetch =
        some (getKeyFallback secret
          (some ("issuer " ++ canonicalizeDomain iss ++ " is not valid")))) ∧
    (∀ (issuers : List String) (keys : List (String × α)) (secret : Option α)
        (issClaim : Option GoValue) (fetch : String → FetchOutcome α)
        (kid : String),
      (issuers.length > 0 ∨ keys.length > 0) →
      goGet keys kid = none →
      (∀ s, issClaim ≠ some (.str s)) →
      getKey issuers keys secret (some (.str kid)) issClaim fetch =
        some (getKeyFallback secret (some "no secret configured"))) := by
  refine ⟨?_, ?_, ?_, ?_, ?_, ?_⟩
  · intro issuers keys secret issClaim fetch kid k hget
    have hpos := goGet_length_pos keys kid k hget
    simp [getKey, hpos, hget]
  · intro issuers keys secret iss fetch kid m k houter hmiss hvalid hfetch hget
    simp [getKey, houter, hmiss, hvalid, hfetch, hget]
  · intro issuers keys secret iss fetch kid m houter hmiss hvalid hfetch hget
    simp [getKey, houter, hmiss, hvalid, hfetch, hget]
  · intro issuers keys secret iss fetch kid msg houter hmiss hvalid hfetch
    simp [getKey, houter, hmiss, hvalid, hfetch]
  · intro issuers keys secret iss fetch kid houter hmiss hvalid
    simp [getKey, houter, hmiss, hvalid]
  · intro issuers keys secret issClaim fetch kid houter hmiss hnostr
    cases issClaim with
    | none => simp [getKey, houter, hmiss]
    | some v =>
      cases v with
      | str s => exact absurd rfl (hnostr s)
      | null => simp [getKey, houter, hmiss]
      | bool b => simp [getKey, houter, hmiss]
      | jnum s => simp [getKey, houter, hmiss]
      | int n => simp [getKey, houter, hmiss]
      | arr xs => simp [getKey, houter, hmiss]
      | obj fs => simp [getKey, houter, hmiss]

/-- C8 witness: concrete instances of all six parts of the amended getKey
theorem (cache hit; retry hit; retry miss with no secret; failed fetch;
invalid issuer; missing issuer claim). -/
theorem C8_getKey_amended_witness :
    getKey ["https://a/"] [("k", (5 : Nat))] none (some (.str "k"))
      (some (.str "https://a/")) (fun _ => .failure "down") = some (some 5, none) ∧
    getKey ["https://a/"] ([] : List (String × Nat)) none (some (.str "k"))
      (some (.str "https://a/")) (fun _ => .success [("k", 5)]) =
      some (some 5, none) ∧
    getKey ["https://a/"] ([] : List (String × Nat)) (some 9) (some (.str "k"))
      (some (.str "https://a/")) (fun _ => .success []) = some (some 9, none) ∧
    getKey ["https://a/"] ([] : List (String × Nat)) none (some (.str "k"))
      (some (.str "https://a/")) (fun _ => .failure "down") =
      some (none, some "down") ∧
    getKey ["https://a/"] ([] : List (String × Nat)) none (some (.str "k"))
      (some (.str "https://b/")) (fun _ => .failure "down") =
      some (none, some "issuer https://b/ is not valid") ∧
    getKey ["https://a/"] ([] : List (String × Nat)) none (some (.str "k"))
      none (fun _ => .failure "down") =
      some (none, some "no secret configured") := by
  have hval : isValidIssuer ["https://a/"] (canonicalizeDomain "https://a/") = true := by
    simp [isValidIssuer, canonicalizeDomain, globMatchS, globMatch]
  have hinval : isValidIssuer ["https://a/"] (canonicalizeDomain "https://b/") = false := by
    simp [isValidIssuer, canonicalizeDomain, globMatchS, globMatch]
  have hcanon : canonicalizeDomain "https://b/" = "https://b/" := by
    simp [canonicalizeDomain]
  refine ⟨?_, ?_, ?_, ?_, ?_, ?_⟩
  · exact C8_getKey_amended.1 _ _ _ _ _ _ _ (by simp [goGet])
  · exact C8_getKey_amended.2.1 _ _ _ "https://a/" _ _ _ _ (Or.inl (by decide))
      (by simp [goGet]) hval rfl (by simp [goGet])
  · exact C8_getKey_amended.2.2.1 _ _ _ "https://a/" _ _ _ (Or.inl (by decide))
      (by simp [goGet]) hval rfl (by simp [goGet])
  · exact C8_getKey_amended.2.2.2.1 _ _ _ "https://a/" _ _ _ (Or.inl (by decide))
      (by simp [goGet]) hval rfl
  · have h := C8_getKey_amended.2.2.2.2.1 ["https://a/"]
      ([] : List (String × Nat)) none "https://b/" (fun _ => .failure "down") "k"
      (Or.inl (by decide)) (by simp [goGet]) hinval
    rw [hcanon] at h
    exact h
  · exact C8_getKey_amended.2.2.2.2.2 _ _ _ none _ _ (Or.inl (by decide))
      (by simp [goGet]) (fun s h => Option.noConfusion h)

/-- C10.  When at least one issuer or at least one keyed secret is
configured and the token header carries a non-string kid, the unchecked
`kid.(string)` type assertion in `getKey` panics (modelled as `none`),
for every issuer claim, fetch oracle and fixed secret — key resolution is
not total and never reaches the error or fixed-secret fallback. -/
theorem C10_nonstring_kid_panics {α : Type} :
    ∀ (issuers : List String) (keys : List (String × α)) (secret : Option α)
      (issClaim : Option GoValue) (fetch : String → FetchOutcome α)
      (kidVal : GoValue),
      (issuers.length > 0 ∨ keys.length > 0) →
      (∀ s, kidVal ≠ .str s) →
      getKey issuers keys secret (some kidVal) issClaim fetch = none := by
  intro issuers keys secret issClaim fetch kidVal houter hnostr
  cases kidVal with
  | str s => exact absurd rfl (hnostr s)
  | null => simp [getKey, houter]
  | bool b => simp [getKey, houter]
  | jnum s => simp [getKey, houter]
  | int n => simp [getKey, houter]
  | arr xs => simp [getKey, houter]
  | obj fs => simp [getKey, houter]

/-- C10 witness: a numeric kid header (JSON number 3) with one configured
issuer and even a fixed secret present panics instead of falling back. -/
theorem C10_nonstring_kid_panics_witness :
    getKey ["https://a/"] ([] : List (String × Nat)) (some 7) (some (.jnum "3"))
      (some (.str "https://a/")) (fun _ => .failure "x") = none :=
  C10_nonstring_kid_panics ["https://a/"] [] (some 7) (some (.str "https://a/"))
    (fun _ => .failure "x") (.jnum "3") (Or.inl (by decide))
    (fun s h => GoValue.noConfusion h)

/-- ExtractConfig is the slice of the plugin configuration that credential
extraction reads. -/
structure ExtractConfig where
  cookieName : String
  headerName : String
  parameterName : String
  forwardToken : Bool

/-- Request models the parts of the incoming HTTP request that credential
extraction reads and mutates: the parsed cookies in order, the header map
(name to list of values) and the query parameters (name to list of
values). -/
structure Request where
  cookies : List (String × String)
  headers : List (String × List String)
  query : List (String × List String)

/-- extractTokenFromCookie models `JWTPlugin.extractTokenFromCookie`: the
first cookie with the configured name yields the token; when found and
token-forwarding is disabled, every cookie of that name is removed from
the forwarded request. -/
def extractTokenFromCookie (p : ExtractConfig) (r : Request) : String × Request :=
  match r.cookies.find? (fun c => c.1 == p.cookieName) with
  | none => ("", r)
  | some c =>
    let r' := if !p.forwardToken then
        { r with cookies := r.cookies.filter (fun c => c.1 ≠ p.cookieName) }
      else r
    (c.2, r')

/-- asciiToLower lower-cases an ASCII letter and leaves any other
character unchanged. -/
def asciiToLower (c : Char) : Char :=
  if 'A' ≤ c ∧ c ≤ 'Z' then Char.ofNat (c.toNat + 32) else c

/-- stripBearer models the prefix stripping
`len(token) >= 7 && strings.EqualFold(token[:7], "Bearer ")` of
`extractTokenFromHeader`: `EqualFold` against the all-ASCII "Bearer "
coincides with ASCII lower-casing (no non-ASCII character case-folds onto
any character of "bearer "), and when the comparison succeeds the stripped
7-byte prefix is exactly 7 characters. -/
def stripBearer (token : String) : String :=
  if token.length ≥ 7 ∧ (token.data.take 7).map asciiToLower = "bearer ".data then
    ⟨token.data.drop 7⟩
  else token

/-- extractTokenFromHeader models `JWTPlugin.extractTokenFromHeader`: a
present header yields its first value (indexing `header[0]` panics — `none`
— if the header map holds an empty value list); when present and
token-forwarding is disabled the header is deleted, and a case-insensitive
"Bearer " prefix is stripped from the value. -/
def extractTokenFromHeader (p : ExtractConfig) (r : Request) :
    Option (String × Request) :=
  match goGet r.headers p.headerName with
  | none => some ("", r)
  | some [] => none
  | some (v :: _) =>
    let r' := if !p.forwardToken then
        { r with headers := r.headers.filter (fun h => h.1 ≠ p.headerName) }
      else r
    some (stripBearer v, r')

/-- extractTokenFromQuery models `JWTPlugin.extractTokenFromQuery`: a
present query parameter yields its first value (or "" when its value list
is empty); when present and token-forwarding is disabled the parameter is
removed from the query. -/
def extractTokenFromQuery (p : ExtractConfig) (r : Request) : String × Request :=
  match goGet r.query p.parameterName with
  | none => ("", r)
  | some vs =>
    let r' := if !p.forwardToken then
        { r with query := r.query.filter (fun q => q.1 ≠ p.parameterName) }
      else r
    (vs.headD "", r')

/-- extractToken models `JWTPlugin.extractToken`: try the configured
cookie, then the configured header, then the configured query parameter,
each only while the token found so far is empty; `none` propagates the
header-indexing panic. -/
def extractToken (p : ExtractConfig) (r : Request) : Option (String × Request) :=
  let c := if p.cookieName ≠ "" then extractTokenFromCookie p r else ("", r)
  if c.1.length != 0 then some c
  else
    match (if p.headerName ≠ "" then extractTokenFromHeader p c.2 else some ("", c.2)) with
    | none => none
    | some h =>
      if h.1.length != 0 then some h
      else if p.parameterName ≠ "" then some (extractTokenFromQuery p h.2)
      else some ("", h.2)

/-- noTemplates is a template engine that is never consulted, used to
instantiate evaluations of configurations without template requirements. -/
def noTemplates : TemplateEngine :=
  ⟨fun _ _ => Except.error "external template engine not used"⟩

/-- nestedRequiredList is the normalization of a (non-nil) nested
requirement into the list of acceptable values, as the spec describes it:
a list stays a list, a single value becomes a one-element list. -/
def nestedRequiredList : GoValue → List GoValue
  | .arr xs => xs
  | v => [v]

/-- nestedSuppliedList is the normalization the code applies to the
supplied nested value: a list stays a list, a Go `nil` matches no case of
the type switch and yields no values, any other single value becomes a
one-element list. -/
def nestedSuppliedList : GoValue → List GoValue
  | .arr xs => xs
  | .null => []
  | v => [v]

lemma goGet_goInsert (l : List (String × α)) (k : String) (v : α) (k' : String) :
    goGet (goInsert l k v) k' = if k' = k then some v else goGet l k' := by
  induction l with
  | nil =>
    by_cases h : k' = k
    · subst h; simp [goInsert, goGet]
    · have h2 : ¬ k = k' := fun hh => h hh.symm
      simp [goInsert, goGet, h, h2]
  | cons x rest ih =>
    obtain ⟨k1, v1⟩ := x
    by_cases h1 : k1 = k
    · subst h1
      have heq : goInsert ((k1, v1) :: rest) k1 v = goInsert rest k1 v := by
        simp [goInsert]
      rw [heq, ih]
      by_cases h : k' = k1
      · simp [h]
      · have h2 : ¬ k1 = k' := fun hh => h hh.symm
        simp [h, h2, goGet]
    · have heq : goInsert ((k1, v1) :: rest) k v = (k1, v1) :: goInsert rest k v := by
        simp [goInsert, h1]
      rw [heq]
      by_cases h2 : k1 = k'
      · subst h2
        simp [goGet, h1]
      · simp [goGet, h2, ih]

lemma goGet_filter_key (l : List (String × α)) (f : String → Bool) (k : String) :
    goGet (l.filter (fun p => f p.1)) k = if f k then goGet l k else none := by
  induction l with
  | nil => simp [goGet]
  | cons x rest ih =>
    obtain ⟨k1, v1⟩ := x
    by_cases h1 : k1 = k
    · subst h1
      by_cases hf : f k1 <;> simp [List.filter_cons, goGet, hf, ih]
    · by_cases hf : f k1 <;> simp [List.filter_cons, goGet, hf, ih, h1]

lemma goGet_merge_of_absent (jwks : List (String × α)) (base : List (String × α))
    (k : String) (h : goGet jwks k = none) :
    goGet (jwks.foldl (fun ks p => goInsert ks p.1 p.2) base) k = goGet base k := by
  induction jwks generalizing base with
  | nil => simp
  | cons x rest ih =>
    obtain ⟨k1, v1⟩ := x
    simp only [goGet] at h
    by_cases h1 : k1 = k
    · simp [h1] at h
    · simp only [List.foldl]
      rw [ih _ (by simpa [h1] using h), goGet_goInsert]
      have h2 : ¬ k = k1 := fun hh => h1 hh.symm
      simp [h2]

lemma goGet_merge_isSome (jwks : List (String × α)) (base : List (String × α))
    (k : String) (h : (goGet base k).isSome) :
    (goGet (jwks.foldl (fun ks p => goInsert ks p.1 p.2) base) k).isSome := by
  induction jwks generalizing base with
  | nil => simpa
  | cons x rest ih =>
    obtain ⟨k1, v1⟩ := x
    simp only [List.foldl]
    refine ih _ ?_
    rw [goGet_goInsert]
    by_cases h' : k = k1 <;> simp [h', h]

/-- C1.  The claim's blanket statement ("a glob-style match between the
claim value and the requirement") is refuted at its own second example:
the code passes the claim value as the glob pattern and the requirement as
the matched name, so a `*` wildcard in the requirement is not glob-evaluated
and requirement "*.example.com" does not match claim "test.example.com". -/
theorem C1_counterexample_wildcard_requirement :
    valueValidate (.str "*.example.com") .null (.str "test.example.com") = false := by
  simp [valueValidate, stringCase, globMatchS, globMatch]

/-- C1 (amended).  For a string claim value checked against a string
requirement, `ValueRequirement.Validate` succeeds exactly when the claim
value, used as a glob pattern with `*` wildcards, matches the requirement,
or the claim value equals the literal string "*." + requirement; in
particular requirement "example.com" matches claim "*.example.com",
requirement "*.example.com" does NOT match claim "test.example.com", and
requirement "test.example.com" does not match claim "*.company.com". -/
theorem C1_string_requirement_amended :
    (∀ (required value : String) (nested : GoValue),
      valueValidate (.str required) nested (.str value) =
        (globMatchS value required || value == "*." ++ required)) ∧
    valueValidate (.str "example.com") .null (.str "*.example.com") = true ∧
    valueValidate (.str "*.example.com") .null (.str "test.example.com") = false ∧
    valueValidate (.str "test.example.com") .null (.str "*.company.com") = false := by
  refine ⟨fun required v nested => by simp [valueValidate, stringCase], ?_, ?_, ?_⟩ <;>
    simp [valueValidate, stringCase, globMatchS, globMatch]

/-- C2.  The `require` configuration `roles: obj [("$and", ["admin",
"other"])]` is converted by `convertRequire`/`NewRequirement` into the
literal value requirement "$and" with nested requirement ["admin",
"other"]; against the token claim `roles = ["admin", "other"]` — for which
the repository's own test "and requirement with valid claims" expects
success — claim validation fails, because "$and" is matched literally
against the claim values instead of producing AND composition. -/
theorem C2_and_key_treated_literally :
    validateClaims noTemplates
      (convertRequire
        [("aud", .str "test"),
         ("roles", .obj [("$and", .arr [.str "admin", .str "other"])])])
      [("aud", .str "test"),
       ("iss", .str "https://auth.example.com"),
       ("roles", .arr [.str "admin", .str "other"])]
      [] = some "claim is not valid: roles" := by
  simp [validateClaims, convertRequire, NewRequirement, strContains, listContainsSub,
    claimReqsValidate, Requirement.Validate, valueValidate, anyElemValidate, stringCase,
    globMatchS, globMatch, goGet, deepEqual, deepEqualList]

/-- C5.  `validateClaims` succeeds exactly when every configured claim name
is present in the token claims with a value satisfying its
`ClaimRequirements` (AND over claim names, with absence an immediate
failure), and a `ClaimRequirements` list is satisfied exactly when at least
one contained `Requirement` validates the value (OR). -/
theorem C5_validateClaims_and_or :
    (∀ (engine : TemplateEngine) (required : Requirements)
        (claims : List (String × GoValue)) (vars : TemplateVariables),
      validateClaims engine required claims vars = none ↔
        ∀ p ∈ required, ∃ v, goGet claims p.1 = some v ∧
          claimReqsValidate engine p.2 v vars = true) ∧
    (∀ (engine : TemplateEngine) (reqs : ClaimRequirements) (v : GoValue)
        (vars : TemplateVariables),
      claimReqsValidate engine reqs v vars = true ↔
        ∃ r ∈ reqs, r.Validate engine v vars = true) := by
  constructor
  · intro engine required claims vars
    induction required with
    | nil => simp [validateClaims]
    | cons p rest ih =>
      obtain ⟨claim, reqs⟩ := p
      cases h : goGet claims claim with
      | none => simp [validateClaims, h]
      | some v =>
        by_cases hv : claimReqsValidate engine reqs v vars
        · simp [validateClaims, h, hv, ih]
        · simp only [validateClaims, h, hv, if_false]
          constructor
          · intro hcontra; cases hcontra
          · intro hall
            obtain ⟨v', hv', hval⟩ := hall (claim, reqs) (by simp)
            rw [h] at hv'
            cases hv'
            exact absurd hval hv
  · intro engine reqs v vars
    simp [claimReqsValidate, List.any_eq_true]

/-- C6.  The claim's uniform normalization ("the supplied nested claim
value is normalized the same way: a single value becomes a one-element
list") fails for a Go `nil` supplied value: a nil interface value matches
neither `case []any` nor `case any` of the type switch in
`ValidateNested`, so against the nested requirement list `[nil]` — whose
sole element is deep-equal to the supplied nil — validation still fails. -/
theorem C6_counterexample_nil_supplied :
    validateNested (.arr [.null]) .null = false ∧ deepEqual .null .null = true := by
  constructor
  · simp [validateNested]
  · simp [deepEqual]

/-- C6 (amended).  `ValidateNested` normalizes the configured nested
requirement into a list of acceptable values (a single value becomes a
one-element list, a list stays a list) and the supplied value the same way
except that a nil supplied value yields no values at all, then succeeds iff
some required value is deep-structurally-equal to some supplied value
(cross-product OR); a nil nested requirement always succeeds. -/
theorem C6_validateNested_amended :
    ∀ (nested v : GoValue),
      validateNested nested v = true ↔
        (nested = .null ∨
          ∃ r ∈ nestedRequiredList nested, ∃ s ∈ nestedSuppliedList v,
            deepEqual r s = true) := by
  intro nested v
  cases nested <;> cases v <;>
    simp [validateNested, nestedRequiredList, nestedSuppliedList, List.any_eq_true]

/-- C3.  The claim is refuted at an `iat` of -2^63: `allowRefresh` computes
`time.Now().Unix() - value` in Go `int64` arithmetic, which wraps around, so
this token is classified Forbidden (403) although now - iat mathematically
far exceeds the freshness window, where the claim requires Unauthorized. -/
theorem C3_counterexample_overflow :
    validateParsed noTemplates 3600 (convertRequire [("aud", .str "test")])
      [("aud", .str "other"), ("iat", .jnum "-9223372036854775808")]
      [] 1700000000 = some 403 ∧
    (1700000000 : Int) - (-9223372036854775808) > 3600 := by
  constructor
  · simp [validateParsed, validateClaims, convertRequire, NewRequirement, strContains,
      listContainsSub, claimReqsValidate, Requirement.Validate, valueValidate, stringCase,
      globMatchS, globMatch, goGet, allowRefresh, parseInt64, int64wrap]
  · norm_num

/-- C3 (amended).  When claim validation fails for a parsed token: if the
freshness window F is non-zero and the token's `iat` is a JSON number that
converts to an `int64` value v, the pipeline returns Unauthorized (401) iff
now - v, computed in wrap-around `int64` arithmetic, exceeds F (for
ordinary timestamps, |now - v| < 2^63, this is the plain difference), and
Forbidden (403) otherwise; if F = 0 or the token has no `iat` claim the
outcome is always Forbidden. -/
theorem C3_freshness_amended :
    (∀ (engine : TemplateEngine) (F : Int) (required : Requirements)
        (claims : List (String × GoValue)) (vars : TemplateVariables)
        (now : Int) (e : String) (s : String) (v : Int),
      validateClaims engine required claims vars = some e →
      F ≠ 0 →
      goGet claims "iat" = some (.jnum s) →
      parseInt64 s = some v →
      validateParsed engine F required claims vars now =
        some (if int64wrap (now - v) > F then 401 else 403)) ∧
    (∀ (engine : TemplateEngine) (required : Requirements)
        (claims : List (String × GoValue)) (vars : TemplateVariables)
        (now : Int) (e : String),
      validateClaims engine required claims vars = some e →
      validateParsed engine 0 required claims vars now = some 403) ∧
    (∀ (engine : TemplateEngine) (F : Int) (required : Requirements)
        (claims : List (String × GoValue)) (vars : TemplateVariables)
        (now : Int) (e : String),
      validateClaims engine required claims vars = some e →
      goGet claims "iat" = none →
      validateParsed engine F required claims vars now = some 403) := by
  refine ⟨?_, ?_, ?_⟩
  · intro engine F required claims vars now e s v hfail hF hiat hparse
    simp only [validateParsed, hfail, allowRefresh, hiat, hparse, beq_iff_eq, hF, if_false]
    by_cases h : int64wrap (now - v) > F <;> simp [h]
  · intro engine required claims vars now e hfail
    simp [validateParsed, hfail, allowRefresh]
  · intro engine F required claims vars now e hfail hiat
    by_cases hF : F = 0
    · subst hF; simp [validateParsed, hfail, allowRefresh]
    · simp [validateParsed, hfail, allowRefresh, hiat, hF]

/-- C3 witness: concrete instances of all three parts of the amended
freshness theorem.  With F = 3600, iat = 100 and now = 10000 a failed
claim validation yields 401; with F = 0, or without an iat claim, 403. -/
theorem C3_freshness_amended_witness :
    validateParsed noTemplates 3600 (convertRequire [("aud", .str "test")])
      [("aud", .str "other"), ("iat", .jnum "100")] [] 10000 = some 401 ∧
    validateParsed noTemplates 0 (convertRequire [("aud", .str "test")])
      [("aud", .str "other"), ("iat", .jnum "100")] [] 10000 = some 403 ∧
    validateParsed noTemplates 3600 (convertRequire [("aud", .str "test")])
      [("aud", .str "other")] [] 10000 = some 403 := by
  have hfail : validateClaims noTemplates (convertRequire [("aud", .str "test")])
      [("aud", .str "other"), ("iat", .jnum "100")] [] = some "claim is not valid: aud" := by
    simp [validateClaims, convertRequire, NewRequirement, strContains, listContainsSub,
      claimReqsValidate, Requirement.Validate, valueValidate, stringCase,
      globMatchS, globMatch, goGet]
  have hfail2 : validateClaims noTemplates (convertRequire [("aud", .str "test")])
      [("aud", .str "other")] [] = some "claim is not valid: aud" := by
    simp [validateClaims, convertRequire, NewRequirement, strContains, listContainsSub,
      claimReqsValidate, Requirement.Validate, valueValidate, stringCase,
      globMatchS, globMatch, goGet]
  refine ⟨?_, ?_, ?_⟩
  · have h := C3_freshness_amended.1 noTemplates 3600 (convertRequire [("aud", .str "test")])
      [("aud", .str "other"), ("iat", .jnum "100")] [] 10000 _ "100" 100
      hfail (by norm_num) (by simp [goGet]) (by simp [parseInt64])
    simpa [int64wrap] using h
  · exact C3_freshness_amended.2.1 noTemplates (convertRequire [("aud", .str "test")])
      [("aud", .str "other"), ("iat", .jnum "100")] [] 10000 _ hfail
  · exact C3_freshness_amended.2.2 noTemplates 3600 (convertRequire [("aud", .str "test")])
      [("aud", .str "other")] [] 10000 _ hfail2 (by simp [goGet])

lemma fetchKeysStore_eq {α : Type} (cache : KeyCache α) (S : String)
    (jwks : List (String × α)) :
    fetchKeysStore cache S jwks =
      ⟨(jwks.foldl (fun ks p => goInsert ks p.1 p.2) cache.keys).filter
          (fun p =>
            isIssuedKey
              ⟨jwks.foldl (fun ks p => goInsert ks p.1 p.2) cache.keys,
                goInsert cache.issuerKeys S jwks⟩ p.1),
        goInsert cache.issuerKeys S jwks⟩ := rfl

lemma mem_goInsert {α : Type} (l : List (String × α)) (k : String) (v : α)
    (q : String × α) :
    q ∈ goInsert l k v ↔ (q ∈ l ∧ q.1 ≠ k) ∨ q = (k, v) := by
  simp [goInsert, List.mem_filter]

/-- C7.  After the store+purge critical section of `fetchKeys` for source S
with fetched key set `jwks`: (1) every kid attributed to no source other
than S and absent from `jwks` is gone from the primary keys map; (2) a kid
present in the primary map and attributed to some other source is
retained; (3) the invariant holds that every kid in the primary map is in
some source's set of the issuer-keys map. -/
theorem C7_store_purge_invariant {α : Type} :
    ∀ (cache : KeyCache α) (S : String) (jwks : List (String × α)) (kid : String),
      ((∀ q ∈ cache.issuerKeys, q.1 ≠ S → goGet q.2 kid = none) →
        goGet jwks kid = none →
        goGet (fetchKeysStore cache S jwks).keys kid = none) ∧
      ((goGet cache.keys kid).isSome →
        (∃ q ∈ cache.issuerKeys, q.1 ≠ S ∧ (goGet q.2 kid).isSome) →
        (goGet (fetchKeysStore cache S jwks).keys kid).isSome) ∧
      ((goGet (fetchKeysStore cache S jwks).keys kid).isSome →
        ∃ q ∈ (fetchKeysStore cache S jwks).issuerKeys,
          (goGet q.2 kid).isSome) := by
  intro cache S jwks kid
  obtain ⟨keys, ik⟩ := cache
  rw [fetchKeysStore_eq]
  simp only []
  refine ⟨?_, ?_, ?_⟩
  · intro hothers habsent
    rw [goGet_filter_key]
    have hiss :
        ¬ isIssuedKey
            ⟨jwks.foldl (fun ks p => goInsert ks p.1 p.2) keys,
              goInsert ik S jwks⟩ kid = true := by
      simp only [isIssuedKey, List.any_eq_true, not_exists, not_and]
      intro q hq
      rcases (mem_goInsert ik S jwks q).mp hq with ⟨hmem, hne⟩ | heq
      · rw [hothers q hmem hne]; simp
      · subst heq; rw [habsent]; simp
    simp only [Bool.not_eq_true] at hiss
    simp [hiss]
  · intro hsome hother
    rw [goGet_filter_key]
    have hiss :
        isIssuedKey
            ⟨jwks.foldl (fun ks p => goInsert ks p.1 p.2) keys,
              goInsert ik S jwks⟩ kid = true := by
      obtain ⟨q, hq, hne, hqs⟩ := hother
      simp only [isIssuedKey, List.any_eq_true]
      exact ⟨q, (mem_goInsert ik S jwks q).mpr (Or.inl ⟨hq, hne⟩), hqs⟩
    simp only [hiss, if_true]
    exact goGet_merge_isSome jwks keys kid hsome
  · intro hsome
    rw [goGet_filter_key] at hsome
    by_cases hiss :
        isIssuedKey
            ⟨jwks.foldl (fun ks p => goInsert ks p.1 p.2) keys,
              goInsert ik S jwks⟩ kid = true
    · simpa [isIssuedKey, List.any_eq_true] using hiss
    · simp only [Bool.not_eq_true] at hiss
      rw [hiss] at hsome
      simp at hsome

/-- C7 witness: a cache holding kid "a" from source "internal" and kid "b"
from source "https://x/"; a fetch for "https://x/" returning only kid "c"
purges "b", retains "a", and leaves every remaining kid attributed. -/
theorem C7_store_purge_invariant_witness :
    goGet (fetchKeysStore
      (⟨[("a", (0 : Nat)), ("b", 1)],
        [("internal", [("a", 0)]), ("https://x/", [("b", 1)])]⟩ : KeyCache Nat)
      "https://x/" [("c", 2)]).keys "b" = none ∧
    (goGet (fetchKeysStore
      (⟨[("a", (0 : Nat)), ("b", 1)],
        [("internal", [("a", 0)]), ("https://x/", [("b", 1)])]⟩ : KeyCache Nat)
      "https://x/" [("c", 2)]).keys "a").isSome ∧
    ∃ q ∈ (fetchKeysStore
      (⟨[("a", (0 : Nat)), ("b", 1)],
        [("internal", [("a", 0)]), ("https://x/", [("b", 1)])]⟩ : KeyCache Nat)
      "https://x/" [("c", 2)]).issuerKeys, (goGet q.2 "c").isSome := by
  refine ⟨?_, ?_, ?_⟩
  · exact (C7_store_purge_invariant _ "https://x/" [("c", 2)] "b").1
      (by decide) (by decide)
  · exact (C7_store_purge_invariant _ "https://x/" [("c", 2)] "a").2.1
      (by decide) ⟨("internal", [("a", 0)]), by decide, by decide, by decide⟩
  · exact (C7_store_purge_invariant _ "https://x/" [("c", 2)] "c").2.2
      (by decide)

/-- C4.  The freshness check is not a total function of the claims map:
with the default freshness window 3600 and the requirement `aud: test`, a
token with claims `aud = "other"`, `iat = "hello"` (iat present but not a
JSON number) makes the unchecked `iat.(json.Number)` type assertion in
`allowRefresh` panic, so claim-validation failure crashes instead of
producing the Forbidden/Unauthorized outcome. -/
theorem C4_nonnumeric_iat_panics :
    validateParsed noTemplates 3600 (convertRequire [("aud", .str "test")])
      [("aud", .str "other"), ("iat", .str "hello")] [] 1700000000 = none := by
  simp [validateParsed, validateClaims, convertRequire, NewRequirement, strContains,
    listContainsSub, claimReqsValidate, Requirement.Validate, valueValidate, stringCase,
    globMatchS, globMatch, goGet, allowRefresh]

/-- cookieTokenOf is the token the configured cookie source offers: the
value of the first cookie with the configured name, or "" when the cookie
source is not configured or the cookie is absent. -/
def cookieTokenOf (p : ExtractConfig) (r : Request) : String :=
  if p.cookieName ≠ "" then
    match r.cookies.find? (fun c => c.1 == p.cookieName) with
    | some c => c.2
    | none => ""
  else ""

/-- headerTokenOf is the token the configured header source offers: the
first value of the configured header with a case-insensitive "Bearer "
prefix stripped, or "" when the header source is not configured or the
header is absent. -/
def headerTokenOf (p : ExtractConfig) (r : Request) : String :=
  if p.headerName ≠ "" then
    match goGet r.headers p.headerName with
    | some (v :: _) => stripBearer v
    | _ => ""
  else ""

/-- queryTokenOf is the token the configured query-parameter source
offers: the first value of the configured parameter, or "" when the
parameter source is not configured or the parameter is absent. -/
def queryTokenOf (p : ExtractConfig) (r : Request) : String :=
  if p.parameterName ≠ "" then
    match goGet r.query p.parameterName with
    | some vs => vs.headD ""
    | none => ""
  else ""

/-- headerQueryStages is the tail of `extractToken` after the cookie
stage: the header stage followed by the query stage. -/
def headerQueryStages (p : ExtractConfig) (r1 : Request) : Option (String × Request) :=
  match (if p.headerName ≠ "" then extractTokenFromHeader p r1 else some ("", r1)) with
  | none => none
  | some h =>
    if h.1.length != 0 then some h
    else if p.parameterName ≠ "" then some (extractTokenFromQuery p h.2)
    else some ("", h.2)

lemma extractToken_pipe (p : ExtractConfig) (r : Request) :
    extractToken p r =
      (let c := if p.cookieName ≠ "" then extractTokenFromCookie p r else ("", r)
       if c.1.length != 0 then some c else headerQueryStages p c.2) := rfl

lemma length_bne_zero (s : String) : (s.length != 0) = true ↔ s ≠ "" := by
  obtain ⟨l⟩ := s
  cases l <;> simp [String.length, String.ext_iff]
lemma goGet_filter_ne {α : Type} (l : List (String × α)) (k : String) :
    goGet (l.filter (fun q => q.1 ≠ k)) k = none := by
  induction l with
  | nil => simp [goGet]
  | cons x rest ih =>
    by_cases h : x.1 = k
    · simpa [List.filter_cons, h] using ih
    · simpa [List.filter_cons, h, goGet] using ih

lemma headerTokenOf_congr (p : ExtractConfig) {r1 r2 : Request}
    (h : r1.headers = r2.headers) : headerTokenOf p r1 = headerTokenOf p r2 := by
  simp [headerTokenOf, h]

lemma queryTokenOf_congr (p : ExtractConfig) {r1 r2 : Request}
    (h : r1.query = r2.query) : queryTokenOf p r1 = queryTokenOf p r2 := by
  simp [queryTokenOf, h]

lemma headerQueryStages_spec (p : ExtractConfig) (r1 : Request)
    (hh : goGet r1.headers p.headerName ≠ some []) :
    ((headerQueryStages p r1).map Prod.fst =
      some (if headerTokenOf p r1 ≠ "" then headerTokenOf p r1
            else queryTokenOf p r1)) ∧
    (p.forwardToken = true → (headerQueryStages p r1).map Prod.snd = some r1) ∧
    (p.forwardToken = false → ∀ t r', headerQueryStages p r1 = some (t, r') →
      (headerTokenOf p r1 ≠ "" → goGet r'.headers p.headerName = none) ∧
      (headerTokenOf p r1 = "" → queryTokenOf p r1 ≠ "" →
        goGet r'.query p.parameterName = none)) := by
  have hstage : ∃ ht rH,
      (if p.headerName ≠ "" then extractTokenFromHeader p r1 else some ("", r1)) =
        some (ht, rH) ∧
      ht = headerTokenOf p r1 ∧ rH.query = r1.query ∧
      (p.forwardToken = true → rH = r1) ∧
      (p.forwardToken = false → ht ≠ "" → goGet rH.headers p.headerName = none) := by
    by_cases hhn : p.headerName = ""
    · exact ⟨"", r1, by simp [hhn], by simp [headerTokenOf, hhn], rfl,
        fun _ => rfl, fun _ hne => absurd rfl hne⟩
    · cases hget : goGet r1.headers p.headerName with
      | none =>
        exact ⟨"", r1, by simp [hhn, extractTokenFromHeader, hget],
          by simp [headerTokenOf, hhn, hget], rfl, fun _ => rfl,
          fun _ hne => absurd rfl hne⟩
      | some vs =>
        cases vs with
        | nil => exact absurd hget hh
        | cons v rest =>
          by_cases hfw : p.forwardToken = true
          · exact ⟨stripBearer v, r1,
              by simp [hhn, extractTokenFromHeader, hget, hfw],
              by simp [headerTokenOf, hhn, hget], rfl, fun _ => rfl,
              fun hcontra => by simp [hcontra] at hfw⟩
          · have hff : p.forwardToken = false := by
              cases hb : p.forwardToken
              · rfl
              · exact absurd hb hfw
            refine ⟨stripBearer v,
              { r1 with headers := r1.headers.filter (fun h => h.1 ≠ p.headerName) },
              ?_, by simp [headerTokenOf, hhn, hget], rfl,
              fun hcontra => absurd hcontra hfw, ?_⟩
            · simp [hhn, extractTokenFromHeader, hget, hff]
            · intro _ _
              exact goGet_filter_ne r1.headers p.headerName
  obtain ⟨ht, rH, heq, hht, hquery, hfwd, hdel⟩ := hstage
  by_cases hte : ht = ""
  · -- the header stage yields no token: the query stage decides
    subst hte
    have htok : headerTokenOf p r1 = "" := hht.symm
    by_cases hpn : p.parameterName = ""
    · have hqt : queryTokenOf p r1 = "" := by simp [queryTokenOf, hpn]
      have hres : headerQueryStages p r1 = some ("", rH) := by
        simp [headerQueryStages, heq, hpn]
      refine ⟨?_, ?_, ?_⟩
      · simp [hres, htok, hqt]
      · intro hf
        simp [hres, hfwd hf]
      · intro _ t r' _
        exact ⟨fun hne => absurd htok hne, fun _ hne => absurd hqt hne⟩
    · cases hq : goGet rH.query p.parameterName with
      | none =>
        have hqt : queryTokenOf p r1 = "" := by
          simp [queryTokenOf, hpn, ← hquery, hq]
        have hres : headerQueryStages p r1 = some ("", rH) := by
          simp [headerQueryStages, heq, hpn, extractTokenFromQuery, hq]
        refine ⟨?_, ?_, ?_⟩
        · simp [hres, htok, hqt]
        · intro hf
          simp [hres, hfwd hf]
        · intro _ t r' _
          exact ⟨fun hne => absurd htok hne, fun _ hne => absurd hqt hne⟩
      | some vs =>
        have hqt : queryTokenOf p r1 = vs.headD "" := by
          simp [queryTokenOf, hpn, ← hquery, hq]
        by_cases hfw : p.forwardToken = true
        · have hres : headerQueryStages p r1 = some (vs.headD "", rH) := by
            simp [headerQueryStages, heq, hpn, extractTokenFromQuery, hq, hfw]
          refine ⟨?_, ?_, ?_⟩
          · simp [hres, htok, hqt]
          · intro hf
            simp [hres, hfwd hf]
          · intro hf
            rw [hf] at hfw
            cases hfw
        · have hff : p.forwardToken = false := by
            cases hb : p.forwardToken
            · rfl
            · exact absurd hb hfw
          have hres : headerQueryStages p r1 =
              some (vs.headD "",
                { rH with query := rH.query.filter (fun q => q.1 ≠ p.parameterName) }) := by
            simp [headerQueryStages, heq, hpn, extractTokenFromQuery, hq, hff]
          refine ⟨?_, ?_, ?_⟩
          · simp [hres, htok, hqt]
          · intro hf
            rw [hf] at hff
            cases hff
          · intro _ t r' hr
            rw [hres] at hr
            have hpair := Option.some.inj hr
            injection hpair with hfst hsnd
            subst hsnd
            refine ⟨fun hne => absurd htok hne, fun _ _ => ?_⟩
            exact goGet_filter_ne rH.query p.parameterName
  · -- the header stage already yields a non-empty token
    have htne : (ht.length != 0) = true := (length_bne_zero ht).mpr hte
    have hres : headerQueryStages p r1 = some (ht, rH) := by
      simp [headerQueryStages, heq, htne]
    have htok : headerTokenOf p r1 ≠ "" := hht ▸ hte
    refine ⟨?_, ?_, ?_⟩
    · simp [hres, ← hht, hte]
    · intro hf
      simp [hres, hfwd hf]
    · intro hf t r' hr
      rw [hres] at hr
      have hpair := Option.some.inj hr
      injection hpair with hfst hsnd
      subst hsnd
      exact ⟨fun _ => hdel hf hte, fun hcontra => absurd hcontra htok⟩

/-- C9.  `extractToken` returns the token of the first non-empty source in
the order cookie, header (Bearer-stripped), query parameter; with
token-forwarding enabled the forwarded request is unchanged, and with it
disabled the source that yielded the token is stripped from the forwarded
request.  The hypothesis excludes the degenerate header map holding an
explicit empty value list, on which Go's `header[0]` would panic. -/
theorem C9_extract_precedence :
    ∀ (p : ExtractConfig) (r : Request),
      goGet r.headers p.headerName ≠ some [] →
      ((extractToken p r).map Prod.fst =
        some (if cookieTokenOf p r ≠ "" then cookieTokenOf p r
              else if headerTokenOf p r ≠ "" then headerTokenOf p r
              else queryTokenOf p r)) ∧
      (p.forwardToken = true → (extractToken p r).map Prod.snd = some r) ∧
      (p.forwardToken = false → ∀ t r', extractToken p r = some (t, r') →
        (cookieTokenOf p r ≠ "" → ∀ c ∈ r'.cookies, c.1 ≠ p.cookieName) ∧
        (cookieTokenOf p r = "" → headerTokenOf p r ≠ "" →
          goGet r'.headers p.headerName = none) ∧
        (cookieTokenOf p r = "" → headerTokenOf p r = "" →
          queryTokenOf p r ≠ "" →
          goGet r'.query p.parameterName = none)) := by
  intro p r hh
  have hcook : ∃ ct rC,
      (if p.cookieName ≠ "" then extractTokenFromCookie p r else ("", r)) =
        (ct, rC) ∧
      ct = cookieTokenOf p r ∧ rC.headers = r.headers ∧ rC.query = r.query ∧
      (p.forwardToken = true → rC = r) ∧
      (p.forwardToken = false → ct ≠ "" →
        ∀ c ∈ rC.cookies, c.1 ≠ p.cookieName) := by
    by_cases hcn : p.cookieName = ""
    · exact ⟨"", r, by simp [hcn], by simp [cookieTokenOf, hcn], rfl, rfl,
        fun _ => rfl, fun _ hne => absurd rfl hne⟩
    · cases hfind : r.cookies.find? (fun c => c.1 == p.cookieName) with
      | none =>
        exact ⟨"", r, by simp [hcn, extractTokenFromCookie, hfind],
          by simp [cookieTokenOf, hcn, hfind], rfl, rfl, fun _ => rfl,
          fun _ hne => absurd rfl hne⟩
      | some c0 =>
        by_cases hfw : p.forwardToken = true
        · exact ⟨c0.2, r, by simp [hcn, extractTokenFromCookie, hfind, hfw],
            by simp [cookieTokenOf, hcn, hfind], rfl, rfl, fun _ => rfl,
            fun hcontra => by simp [hcontra] at hfw⟩
        · have hff : p.forwardToken = false := by
            cases hb : p.forwardToken
            · rfl
            · exact absurd hb hfw
          refine ⟨c0.2,
            { r with cookies := r.cookies.filter (fun c => c.1 ≠ p.cookieName) },
            by simp [hcn, extractTokenFromCookie, hfind, hff],
            by simp [cookieTokenOf, hcn, hfind], rfl, rfl,
            fun hcontra => absurd hcontra hfw, ?_⟩
          intro _ _ c hc
          rw [List.mem_filter] at hc
          simpa using hc.2
  obtain ⟨ct, rC, hceq, hct, hheads, hquery, hcfwd, hcstrip⟩ := hcook
  have hhC : goGet rC.headers p.headerName ≠ some [] := by rw [hheads]; exact hh
  have hhtC : headerTokenOf p rC = headerTokenOf p r := headerTokenOf_congr p hheads
  have hqtC : queryTokenOf p rC = queryTokenOf p r := queryTokenOf_congr p hquery
  obtain ⟨hq1, hq2, hq3⟩ := headerQueryStages_spec p rC hhC
  by_cases hce : ct = ""
  · -- no token from the cookie source
    have hctok : cookieTokenOf p r = "" := hct ▸ hce
    subst hce
    have hpipe : extractToken p r = headerQueryStages p rC := by
      rw [extractToken_pipe, hceq]
      simp
    refine ⟨?_, ?_, ?_⟩
    · rw [hpipe, hq1, hhtC, hqtC, hctok]
      simp
    · intro hf
      rw [hpipe, hq2 hf]
      exact congrArg some (hcfwd hf)
    · intro hf t r' hr
      rw [hpipe] at hr
      obtain ⟨hd1, hd2⟩ := hq3 hf t r' hr
      exact ⟨fun hne => absurd hctok hne,
        fun _ hne => hd1 (hhtC ▸ hne),
        fun _ hhe hne => hd2 (hhtC ▸ hhe) (hqtC ▸ hne)⟩
  · -- the cookie source yields the token
    have hctok : cookieTokenOf p r ≠ "" := hct ▸ hce
    have hlen : (ct.length != 0) = true := (length_bne_zero ct).mpr hce
    have hpipe : extractToken p r = some (ct, rC) := by
      rw [extractToken_pipe, hceq]
      simp [hlen]
    refine ⟨?_, ?_, ?_⟩
    · rw [hpipe]
      simp [hctok, hct]
    · intro hf
      rw [hpipe, hcfwd hf]
      rfl
    · intro hf t r' hr
      rw [hpipe] at hr
      have hpair := Option.some.inj hr
      injection hpair with hfst hsnd
      subst hsnd
      exact ⟨fun _ => hcstrip hf hce, fun hcontra => absurd hcontra hctok,
        fun hcontra => absurd hcontra hctok⟩

/-- C9 witness: a request carrying the token in all three sources with
forwarding disabled yields the cookie token; one carrying it only in the
header (with a Bearer prefix) yields the stripped header token. -/
theorem C9_extract_precedence_witness :
    (extractToken ⟨"Authorization", "Authorization", "token", false⟩
        ⟨[("Authorization", "ctok")], [("Authorization", ["Bearer htok"])],
          [("token", ["qtok"])]⟩).map Prod.fst = some "ctok" ∧
    (extractToken ⟨"Authorization", "Authorization", "token", false⟩
        ⟨[], [("Authorization", ["Bearer htok"])], []⟩).map Prod.fst =
      some "htok" := by
  constructor
  · have h := (C9_extract_precedence ⟨"Authorization", "Authorization", "token", false⟩
      ⟨[("Authorization", "ctok")], [("Authorization", ["Bearer htok"])],
        [("token", ["qtok"])]⟩ (by simp [goGet])).1
    rw [h]
    simp [cookieTokenOf]
  · have h := (C9_extract_precedence ⟨"Authorization", "Authorization", "token", false⟩
      ⟨[], [("Authorization", ["Bearer htok"])], []⟩ (by simp [goGet])).1
    rw [h]
    decide

end JwtMW
